import Mathlib

/-!
Verification of the InvestSite web-scraping pipeline (`stocks.py`).

The development shallowly embeds the data-cleaning and batch-scheduling core of
the scraper in Lean:

* Python strings are modelled as `List Char`; `str.replace`, `str.strip`,
  `str.split`, `str.upper`/`lower` and the regex searches used by the code are
  implemented character by character with Python's semantics.
* Python `float` values are modelled as exact rationals (`ℚ`).  `float(s)`
  becomes the partial parser `pyFloat`, `str(x)` becomes the decimal renderer
  `pyFloatRepr` (plain positional notation; CPython switches to scientific
  notation for |x| < 1e-4 or ≥ 1e16, so theorems that run a value through
  `str` carry an explicit range hypothesis keeping the model faithful), and
  `round(x, 2)` / `f"{x:.2f}"` use round-half-to-even (`rhe`, `round2`).
* Fallible Python code (`try`/`except` returning `None`) becomes `Option`.
* The thread pool of `scrape_all_stocks` is modelled by an arbitrary
  per-batch reordering function constrained to be a permutation, and the
  `ValueError`s raised by `range(0, n, 0)` and `ThreadPoolExecutor(0)` by
  `Except.error`.

All recursive functions use structural recursion (with explicit fuel where the
measure is not structural) so that every definition evaluates inside the
kernel.
-/

set_option maxHeartbeats 1000000

abbrev PyStr := List Char

/-- Python `str.isspace` characters relevant to `str.strip()`. -/
def pyIsSpace (c : Char) : Bool :=
  c = ' ' || c = '\t' || c = '\n' || c = '\r' || c = '\x0b' || c = '\x0c'

/-- Left part of Python `str.strip()`. -/
def pyLstrip : PyStr → PyStr
  | [] => []
  | c :: cs => if pyIsSpace c then pyLstrip cs else c :: cs

/-- Right part of Python `str.strip()`. -/
def pyRstrip (s : PyStr) : PyStr := (pyLstrip s.reverse).reverse

/-- Python `str.strip()` (no argument form). -/
def pyStrip (s : PyStr) : PyStr := pyRstrip (pyLstrip s)

/-- `startsWithPat pat s` is Python `s.startswith(pat)`. -/
def startsWithPat : PyStr → PyStr → Bool
  | [], _ => true
  | _ :: _, [] => false
  | p :: ps, c :: cs => (p == c) && startsWithPat ps cs

/-- `containsSub pat s` is Python `pat in s` (substring containment). -/
def containsSub (pat : PyStr) : PyStr → Bool
  | [] => startsWithPat pat []
  | c :: cs => startsWithPat pat (c :: cs) || containsSub pat cs

/-- Fuelled core of Python `str.replace`: scan left to right, replacing each
non-overlapping occurrence of `pat`.  The fuel only needs to dominate the
number of characters consumed, which each step bounds below by one. -/
def pyReplaceAux (pat rep : PyStr) : ℕ → PyStr → PyStr
  | _, [] => []
  | 0, s => s
  | fuel + 1, c :: cs =>
    if startsWithPat pat (c :: cs) ∧ pat ≠ [] then
      rep ++ pyReplaceAux pat rep fuel ((c :: cs).drop pat.length)
    else
      c :: pyReplaceAux pat rep fuel cs

/-- Python `s.replace(pat, rep)` for a non-empty `pat` (every use in the
source has a non-empty pattern). -/
def pyReplace (pat rep s : PyStr) : PyStr := pyReplaceAux pat rep s.length s

/-- Python `s.split(sep)` for a single-character separator. -/
def pySplit (sep : Char) : PyStr → List PyStr
  | [] => [[]]
  | c :: cs =>
    if c = sep then [] :: pySplit sep cs
    else
      match pySplit sep cs with
      | [] => [[c]]
      | t :: ts => (c :: t) :: ts

/-- Numeric value of a decimal digit character. -/
def charVal (c : Char) : ℕ := c.toNat - 48

/-- Value of a most-significant-first digit-character string. -/
def digitsVal (cs : PyStr) : ℕ := cs.foldl (fun a c => 10 * a + charVal c) 0

/-- Fuelled base-10 digit extraction, least significant first; `[]` for `0`. -/
def natDigitsAux : ℕ → ℕ → List ℕ
  | _, 0 => []
  | 0, _ => []
  | fuel + 1, n => n % 10 :: natDigitsAux fuel (n / 10)

/-- Base-10 digits of `n`, least significant first; `[]` for `0`. -/
def natDigits (n : ℕ) : List ℕ := natDigitsAux n n

/-- The character for one decimal digit. -/
def digitChar : ℕ → Char
  | 0 => '0' | 1 => '1' | 2 => '2' | 3 => '3' | 4 => '4'
  | 5 => '5' | 6 => '6' | 7 => '7' | 8 => '8' | _ => '9'

/-- Decimal rendering of a natural number (empty for `0`). -/
def natToChars (n : ℕ) : PyStr := (natDigits n).reverse.map digitChar

/-- Decimal rendering padded with leading zeros to at least `len` characters. -/
def natToCharsPad (len n : ℕ) : PyStr :=
  List.replicate (len - (natToChars n).length) '0' ++ natToChars n

/-- Render `n / 10^k` in positional notation with exactly `k` fractional
digits (and at least one integer digit): the padded digit string of `n` with
a dot inserted before its last `k` characters. -/
def renderFixed (k n : ℕ) : PyStr :=
  (natToCharsPad (k + 1) n).take ((natToCharsPad (k + 1) n).length - k) ++
    '.' :: (natToCharsPad (k + 1) n).drop ((natToCharsPad (k + 1) n).length - k)

/-- Python `str(x)` for a float `x`, modelled on exact rationals with a
terminating decimal expansion: positional decimal notation with at least one
fractional digit (CPython prints the shortest round-tripping decimal and
switches to scientific notation outside [1e-4, 1e16); theorems that depend on
`pyFloatRepr` restrict themselves to the positional-notation range, where
trailing-zero differences are invisible because the string is immediately
re-parsed). -/
def pyFloatRepr (q : ℚ) : PyStr :=
  let k := max 1 q.den
  (if q < 0 then ['-'] else []) ++ renderFixed k (q * 10 ^ k).num.natAbs

/-- Round-half-to-even to an integer, as Python `round`/`format` do. -/
def rhe (q : ℚ) : ℤ :=
  if q - ⌊q⌋ < 1 / 2 then ⌊q⌋
  else if 1 / 2 < q - ⌊q⌋ then ⌊q⌋ + 1
  else if ⌊q⌋ % 2 = 0 then ⌊q⌋ else ⌊q⌋ + 1

/-- Python `round(x, 2)` on the exact-rational model. -/
def round2 (q : ℚ) : ℚ := (rhe (q * 100) : ℚ) / 100

/-- Character class of the regex `[\d.]`. -/
def digitOrDot (c : Char) : Bool := c.isDigit || c = '.'

/-- `re.search(r'([\d.]+)', s)`: first maximal run of digits and dots. -/
def searchNum : PyStr → Option PyStr
  | [] => none
  | c :: cs =>
    if digitOrDot c then some (c :: cs.takeWhile digitOrDot)
    else searchNum cs

/-- Whether a string starts with a `[\d.]` character. -/
def headDigitOrDot : PyStr → Bool
  | [] => false
  | c :: _ => digitOrDot c

/-- `re.search(r'([-+]?[\d.]+)', s)`: first match of an optionally signed
maximal run of digits and dots. -/
def searchSignedNum : PyStr → Option PyStr
  | [] => none
  | c :: cs =>
    if digitOrDot c then some (c :: cs.takeWhile digitOrDot)
    else if (c = '-' ∨ c = '+') ∧ headDigitOrDot cs then
      some (c :: cs.takeWhile digitOrDot)
    else searchSignedNum cs

/-- Whether a string starts with a decimal digit. -/
def headIsDigit : PyStr → Bool
  | [] => false
  | c :: _ => c.isDigit

/-- `re.search(r'([-+]?\d+)', s)`: first optionally signed digit run. -/
def searchSignedDigits : PyStr → Option PyStr
  | [] => none
  | c :: cs =>
    if c.isDigit then some (c :: cs.takeWhile (fun d => d.isDigit))
    else if (c = '-' ∨ c = '+') ∧ headIsDigit cs then
      some (c :: cs.takeWhile (fun d => d.isDigit))
    else searchSignedDigits cs

/-- Python `float(s)` on an unsigned body: digits with at most one dot and at
least one digit; anything else raises, i.e. returns `none`.  (Exponent forms
never reach `float` in the modelled pipeline: the regexes that produce its
arguments match only sign, digits and dots.) -/
def pyFloatUnsigned (cs : PyStr) : Option ℚ :=
  if cs.all (fun c => digitOrDot c) ∧ cs.count '.' ≤ 1 ∧ cs.any (fun c => c.isDigit) then
    some ((digitsVal (cs.takeWhile (fun c => c ≠ '.') ++
            (cs.dropWhile (fun c => c ≠ '.')).drop 1) : ℚ) /
          10 ^ ((cs.dropWhile (fun c => c ≠ '.')).drop 1).length)
  else none

/-- Python `float(s)`: strip whitespace, optional sign, unsigned body. -/
def pyFloat (cs : PyStr) : Option ℚ :=
  match pyStrip cs with
  | [] => none
  | c :: rest =>
    if c = '-' then (pyFloatUnsigned rest).map (fun x => -x)
    else if c = '+' then pyFloatUnsigned rest
    else pyFloatUnsigned (c :: rest)

/-- Python `int(s)` on a `[-+]?\d+` match. -/
def intOfChars : PyStr → ℤ
  | '-' :: ds => -(digitsVal ds : ℤ)
  | '+' :: ds => (digitsVal ds : ℤ)
  | ds => (digitsVal ds : ℤ)

/-- Python `s.upper()` (ASCII; every string the source uppercases is ASCII
apart from characters that upper-casing leaves unchanged). -/
def pyUpper (cs : PyStr) : PyStr := cs.map Char.toUpper

/-- Python `s.lower()` (ASCII, same caveat). -/
def pyLower (cs : PyStr) : PyStr := cs.map Char.toLower

/-! ## `DataCleaner` (src/stocks.py, lines 47–283)

Each `clean_*` function mirrors its Python source line by line.  The shared
sentinel test is `if not value or value == 'N/A' or value == '-'`. -/

/-- The sentinel test shared by every cleaner. -/
def isSentinel (value : String) : Prop := value = "" ∨ value = "N/A" ∨ value = "-"

instance (value : String) : Decidable (isSentinel value) := by
  unfold isSentinel; infer_instance

/-- Sign detection of `clean_currency_to_float` / `clean_currency_with_scale_to_float`:
`original_value.startswith('-') or original_value.startswith('- ') or
'R$ -' in original_value or 'R$-' in original_value`. -/
def currencyNeg (ov : PyStr) : Bool :=
  startsWithPat ['-'] ov || startsWithPat ['-', ' '] ov ||
  containsSub ['R', '$', ' ', '-'] ov || containsSub ['R', '$', '-'] ov

/-- Marker/sign/space removal of the currency cleaners:
`.replace('R$', '').replace('R ', '').replace('-', '').replace(' ', '').strip()`. -/
def currencyStripSyms (ov : PyStr) : PyStr :=
  pyStrip (pyReplace [' '] []
    (pyReplace ['-'] []
      (pyReplace ['R', ' '] []
        (pyReplace ['R', '$'] [] ov))))

/-- Separator disambiguation of `clean_currency_to_float`: a comma with at
most two trailing digits is decimal (dots stripped, comma to dot), otherwise
commas and dots are both stripped; without a comma, dots are stripped. -/
def currencySeps (cv : PyStr) : PyStr :=
  if cv.contains ',' then
    if ((pySplit ',' cv).getLastD []).length ≤ 2 then
      pyReplace [','] ['.'] (pyReplace ['.'] [] cv)
    else
      pyReplace ['.'] [] (pyReplace [','] [] cv)
  else
    pyReplace ['.'] [] cv

/-- Tail of `clean_currency_to_float`: `re.search(r'([\d.]+)', ...)`, `float`,
`round(number, 2)`, then the recorded sign. -/
def currencyCore (cv : PyStr) (neg : Bool) : Option ℚ :=
  (searchNum (currencySeps cv)).bind fun m =>
    (pyFloat m).map fun number =>
      if neg then -(round2 number) else round2 number

/-- `DataCleaner.clean_currency_to_float` (lines 50–89). -/
def clean_currency_to_float (value : String) : Option ℚ :=
  if isSentinel value then none
  else
    currencyCore (currencyStripSyms (pyStrip value.toList))
      (currencyNeg (pyStrip value.toList))

/-- Scale detection of `clean_currency_with_scale_to_float` (order B, MIL, M,
K; the operand is already upper-cased). -/
def scaleDetect (cv : PyStr) : ℚ × PyStr :=
  if containsSub ['B'] cv then (1000000000, pyStrip (pyReplace ['B'] [] cv))
  else if containsSub ['M', 'I', 'L'] cv then (1000, pyStrip (pyReplace ['M', 'I', 'L'] [] cv))
  else if containsSub ['M'] cv then (1000000, pyStrip (pyReplace ['M'] [] cv))
  else if containsSub ['K'] cv then (1000, pyStrip (pyReplace ['K'] [] cv))
  else (1, cv)

/-- Brazilian-vs-international separator handling shared verbatim by
`clean_currency_with_scale_to_float` and `clean_ratio_to_float`. -/
def brSeps (cv : PyStr) : PyStr :=
  if cv.contains ',' ∧ cv.contains '.' then
    pyReplace [','] ['.'] (pyReplace ['.'] [] cv)
  else if cv.contains ',' then
    if ((pySplit ',' cv).getLastD []).length ≤ 2 then pyReplace [','] ['.'] cv
    else pyReplace [','] [] cv
  else if cv.contains '.' then
    if ((pySplit '.' cv).getLastD []).length ≤ 2 then cv
    else pyReplace ['.'] [] cv
  else cv

/-- `DataCleaner.clean_currency_with_scale_to_float` (lines 91–155). -/
def clean_currency_with_scale_to_float (value : String) : Option ℚ :=
  if isSentinel value then none
  else
    let ov := pyStrip value.toList
    let neg := currencyNeg ov
    let sc := scaleDetect (pyUpper (currencyStripSyms ov))
    (searchNum (brSeps sc.2)).bind fun m =>
      (pyFloat m).map fun number =>
        if neg then -(round2 (number * sc.1)) else round2 (number * sc.1)

/-- `clean_val = str(value).replace('%', '').strip()` of
`clean_percentage_to_float`. -/
def pctPreClean (value : String) : PyStr := pyStrip (pyReplace ['%'] [] value.toList)

/-- Separator handling of `clean_percentage_to_float`: both separators
present means thousands+decimal Brazilian format followed by the
unconditional ÷1000 defect correction; a lone dot with more than two trailing
digits is corrected by ÷1000 only when the dot-stripped value reaches 1000 in
absolute value.  `str(temp_result / 1000)` is `pyFloatRepr`. -/
def pctTransform (cv : PyStr) : Option PyStr :=
  if cv.contains '.' ∧ cv.contains ',' then
    (pyFloat (pyReplace [','] ['.'] (pyReplace ['.'] [] cv))).map fun t =>
      pyFloatRepr (t / 1000)
  else if cv.contains ',' then
    some (pyReplace [','] ['.'] cv)
  else if cv.contains '.' then
    if ((pySplit '.' cv).getLastD []).length ≤ 2 then some cv
    else
      (pyFloat (pyReplace ['.'] [] cv)).map fun t =>
        if 1000 ≤ |t| then pyFloatRepr (t / 1000)
        else pyReplace ['.'] [] cv
  else some cv

/-- `DataCleaner.clean_percentage_to_float` (lines 157–204): sentinel test,
`%`-stripping, separator handling with the ÷1000 defect correction, then
`re.search(r'([-+]?[\d.]+)')`, `float` and `round(·, 2)`. -/
def clean_percentage_to_float (value : String) : Option ℚ :=
  if isSentinel value then none
  else
    (pctTransform (pctPreClean value)).bind fun cvf =>
      (searchSignedNum cvf).bind fun m =>
        (pyFloat m).map round2

/-- `DataCleaner.clean_ratio_to_float` (lines 206–240). -/
def clean_ratio_to_float (value : String) : Option ℚ :=
  if isSentinel value then none
  else
    (searchSignedNum (brSeps (pyStrip value.toList))).bind fun m =>
      (pyFloat m).map round2

/-- `DataCleaner.clean_integer` (lines 264–283): strip grouping punctuation,
drop everything but digits and signs, then `re.search(r'([-+]?\d+)')` and
`int`. -/
def clean_integer (value : String) : Option ℤ :=
  if isSentinel value then none
  else
    let cv := pyStrip (pyReplace [','] [] (pyReplace ['.'] [] value.toList))
    (searchSignedDigits (cv.filter fun c => c.isDigit || c = '-' || c = '+')).map intOfChars

/-! ### `clean_date_to_format`

`datetime.strptime` is modelled for the four fixed formats the source tries:
`%d`/`%m` accept one or two digits in range, `%Y` exactly four digits, `%y`
exactly two (with CPython's 1969 pivot), separators must match exactly and
the whole string must be consumed, and the resulting calendar date must
exist (`datetime` also requires year ≥ 1). -/

/-- Value of a one- or two-digit field. -/
def twoDigitVal : PyStr → Option ℕ
  | [c] => if c.isDigit then some (charVal c) else none
  | [c, d] => if c.isDigit ∧ d.isDigit then some (10 * charVal c + charVal d) else none
  | _ => none

/-- `%d`: one or two digits in 1..31. -/
def parseDay (cs : PyStr) : Option ℕ :=
  (twoDigitVal cs).bind fun v => if 1 ≤ v ∧ v ≤ 31 then some v else none

/-- `%m`: one or two digits in 1..12. -/
def parseMonth (cs : PyStr) : Option ℕ :=
  (twoDigitVal cs).bind fun v => if 1 ≤ v ∧ v ≤ 12 then some v else none

/-- `%Y`: exactly four digits. -/
def parseYear4 : PyStr → Option ℕ
  | [a, b, c, d] =>
    if a.isDigit ∧ b.isDigit ∧ c.isDigit ∧ d.isDigit then
      some (1000 * charVal a + 100 * charVal b + 10 * charVal c + charVal d)
    else none
  | _ => none

/-- `%y`: exactly two digits, 00–68 ↦ 2000–2068, 69–99 ↦ 1969–1999. -/
def parseYear2 : PyStr → Option ℕ
  | [a, b] =>
    if a.isDigit ∧ b.isDigit then
      some (if 10 * charVal a + charVal b ≤ 68 then 2000 + 10 * charVal a + charVal b
            else 1900 + 10 * charVal a + charVal b)
    else none
  | _ => none

/-- Gregorian leap year. -/
def isLeap (y : ℕ) : Bool := y % 4 = 0 && (y % 100 ≠ 0 || y % 400 = 0)

/-- Days in a month. -/
def daysInMonth (y m : ℕ) : ℕ :=
  if m = 2 then (if isLeap y then 29 else 28)
  else if m = 4 ∨ m = 6 ∨ m = 9 ∨ m = 11 then 30
  else 31

/-- `datetime(year, month, day)` validation (month already in 1..12 and day
≥ 1 from the field parsers). -/
def mkDate (d m y : ℕ) : Option (ℕ × ℕ × ℕ) :=
  if 1 ≤ y ∧ d ≤ daysInMonth y m then some (d, m, y) else none

/-- `strptime` with a day/month/year format and the given separator and year
parser (covers `%d/%m/%Y`, `%d-%m-%Y` and `%d/%m/%y`). -/
def tryFmtDMY (sep : Char) (yp : PyStr → Option ℕ) (ds : PyStr) : Option (ℕ × ℕ × ℕ) :=
  match pySplit sep ds with
  | [a, b, c] =>
    (parseDay a).bind fun d =>
      (parseMonth b).bind fun m =>
        (yp c).bind fun y => mkDate d m y
  | _ => none

/-- `strptime` with `%Y-%m-%d`. -/
def tryFmtYMD (ds : PyStr) : Option (ℕ × ℕ × ℕ) :=
  match pySplit '-' ds with
  | [a, b, c] =>
    (parseYear4 a).bind fun y =>
      (parseMonth b).bind fun m =>
        (parseDay c).bind fun d => mkDate d m y
  | _ => none

/-- `date_obj.strftime('%d/%m/%Y')`. -/
def fmtDMY : ℕ × ℕ × ℕ → String
  | (d, m, y) => ⟨natToCharsPad 2 d ++ '/' :: natToCharsPad 2 m ++ '/' :: natToCharsPad 4 y⟩

/-- `DataCleaner.clean_date_to_format` (lines 242–262): try the four formats
in order; on success re-render as `%d/%m/%Y`; if none matches, return the
original value unchanged (the function's final `return value`). -/
def clean_date_to_format (value : String) : Option String :=
  if isSentinel value then none
  else
    let ds := pyStrip value.toList
    match (tryFmtDMY '/' parseYear4 ds).orElse fun _ =>
          (tryFmtYMD ds).orElse fun _ =>
          (tryFmtDMY '-' parseYear4 ds).orElse fun _ =>
          tryFmtDMY '/' parseYear2 ds with
    | some dmy => some (fmtDMY dmy)
    | none => some value

/-! ## `StocksScraper` record pipeline (src/stocks.py, lines 832–1388)

A scraped record before cleaning is an insertion-ordered association list
from field name to raw string (a Python dict); after cleaning, values are
heterogeneous. -/

/-- A cleaned record value: raw string, rounded float, or integer. -/
inductive CellVal where
  | s (v : String)
  | q (v : ℚ)
  | z (v : ℤ)
deriving DecidableEq, Repr

/-- The six normalizers the rule table dispatches to. -/
inductive Cleaner where
  | currency
  | currencyScale
  | percentage
  | ratio
  | date
  | integer
deriving DecidableEq, Repr

/-- Run one normalizer, embedding its result into `CellVal`. -/
def applyCleaner : Cleaner → String → Option CellVal
  | .currency, v => (clean_currency_to_float v).map CellVal.q
  | .currencyScale, v => (clean_currency_with_scale_to_float v).map CellVal.q
  | .percentage, v => (clean_percentage_to_float v).map CellVal.q
  | .ratio, v => (clean_ratio_to_float v).map CellVal.q
  | .date, v => (clean_date_to_format v).map CellVal.s
  | .integer, v => (clean_integer v).map CellVal.z

/-- `cleaning_rules` entries: basic prices and the multiples block. -/
def cleaningRulesPrices : List (String × Cleaner) :=
  [("Último Preço de Fechamento", .currency),
   ("Volume Financeiro Transacionado", .currencyScale),
   ("Indicador - Preço/Lucro", .ratio),
   ("Indicador - Preço/VPA", .ratio),
   ("Indicador - Preço/Receita Líquida", .ratio),
   ("Indicador - Preço/FCO", .ratio),
   ("Indicador - Preço/FCF", .ratio),
   ("Indicador - Preço/Ativo Total", .ratio),
   ("Indicador - Preço/EBIT", .ratio),
   ("Indicador - Preço/Capital Giro", .ratio),
   ("Indicador - Preço/NCAV", .ratio),
   ("Indicador - EV/EBIT", .ratio),
   ("Indicador - EV/EBITDA", .ratio),
   ("Indicador - EV/Receita Líquida", .ratio),
   ("Indicador - EV/FCO", .ratio),
   ("Indicador - EV/FCF", .ratio),
   ("Indicador - EV/Ativo Total", .ratio),
   ("Indicador - Market Cap Empresa", .currencyScale),
   ("Indicador - Enterprise Value", .currencyScale),
   ("Indicador - Data Demonstração Financeira Atual", .date),
   ("Indicador - Data do Preço da Ação", .date),
   ("Indicador - Preço Atual da Ação", .currency),
   ("Indicador - Dividend Yield", .percentage)]

/-- `cleaning_rules` entries: the income-statement (DRE) blocks. -/
def cleaningRulesDRE : List (String × Cleaner) :=
  [("DRE 12M - Receita Líquida", .currencyScale),
   ("DRE 12M - Resultado Bruto", .currencyScale),
   ("DRE 12M - EBIT", .currencyScale),
   ("DRE 12M - Depreciação e Amortização", .currencyScale),
   ("DRE 12M - EBITDA", .currencyScale),
   ("DRE 12M - Lucro Líquido", .currencyScale),
   ("DRE 12M - Lucro/Ação", .currencyScale),
   ("DRE 3M - Receita Líquida", .currencyScale),
   ("DRE 3M - Resultado Bruto", .currencyScale),
   ("DRE 3M - EBIT", .currencyScale),
   ("DRE 3M - Depreciação e Amortização", .currencyScale),
   ("DRE 3M - EBITDA", .currencyScale),
   ("DRE 3M - Lucro Líquido", .currencyScale),
   ("DRE 3M - Lucro/Ação", .currencyScale)]

/-- `cleaning_rules` entries: returns and margins. -/
def cleaningRulesMargens : List (String × Cleaner) :=
  [("Retorno/Margem - Retorno s/ Capital Tangível Inicial", .percentage),
   ("Retorno/Margem - Retorno s/ Capital Investido Inicial", .percentage),
   ("Retorno/Margem - Retorno s/ Capital Tangível Inicial Pré-Impostos", .percentage),
   ("Retorno/Margem - Retorno s/ Capital Investido Inicial Pré-Impostos", .percentage),
   ("Retorno/Margem - Retorno s/ Patrimônio Líquido Inicial", .percentage),
   ("Retorno/Margem - Retorno s/ Ativo Inicial", .percentage),
   ("Retorno/Margem - Margem Bruta", .percentage),
   ("Retorno/Margem - Margem Líquida", .percentage),
   ("Retorno/Margem - Margem EBIT", .percentage),
   ("Retorno/Margem - Margem EBITDA", .percentage),
   ("Retorno/Margem - Giro do Ativo Inicial", .ratio),
   ("Retorno/Margem - Alavancagem Financeira", .ratio),
   ("Retorno/Margem - Passivo/Patrimônio Líquido", .ratio),
   ("Retorno/Margem - Dívida Líquida/EBITDA", .ratio)]

/-- `cleaning_rules` entries: balance sheet. -/
def cleaningRulesBalanco : List (String × Cleaner) :=
  [("Balanço - Caixa e Equivalentes de Caixa", .currencyScale),
   ("Balanço - Ativo Total", .currencyScale),
   ("Balanço - Dívida de Curto Prazo", .currencyScale),
   ("Balanço - Dívida de Longo Prazo", .currencyScale),
   ("Balanço - Dívida Bruta", .currencyScale),
   ("Balanço - Dívida Líquida", .currencyScale),
   ("Balanço - Patrimônio Líquido", .currencyScale),
   ("Balanço - Valor Patrimonial da Ação", .currencyScale),
   ("Balanço - Ações Ordinárias", .integer),
   ("Balanço - Ações Preferenciais", .integer),
   ("Balanço - Total", .integer),
   ("Balanço - Ações Ordinárias em Tesouraria", .integer),
   ("Balanço - Ações Preferenciais em Tesouraria", .integer),
   ("Balanço - Total em Tesouraria", .integer),
   ("Balanço - Ações Ordinárias (Exceto Tesouraria)", .integer),
   ("Balanço - Ações Preferenciais (Exceto Tesouraria)", .integer),
   ("Balanço - Total (Exceto Tesouraria)", .integer)]

/-- `cleaning_rules` entries: cash flow, CAPEX/FCL and the earnings yield. -/
def cleaningRulesFC : List (String × Cleaner) :=
  [("FC 12M - Fluxo de Caixa Operacional", .currencyScale),
   ("FC 12M - Fluxo de Caixa de Investimentos", .currencyScale),
   ("FC 12M - Fluxo de Caixa de Financiamentos", .currencyScale),
   ("FC 12M - Aumento (Redução) de Caixa e Equivalentes", .currencyScale),
   ("FC 3M - Fluxo de Caixa Operacional", .currencyScale),
   ("FC 3M - Fluxo de Caixa de Investimentos", .currencyScale),
   ("FC 3M - Fluxo de Caixa de Financiamentos", .currencyScale),
   ("FC 3M - Aumento (Redução) de Caixa e Equivalentes", .currencyScale),
   ("CAPEX/FCL - CAPEX 3 meses", .currencyScale),
   ("CAPEX/FCL - Fluxo de Caixa Livre 3 meses", .currencyScale),
   ("CAPEX/FCL - CAPEX 12 meses", .currencyScale),
   ("CAPEX/FCL - Fluxo de Caixa Livre 12 meses", .currencyScale),
   ("Earnings Yield (%)", .percentage)]

/-- `cleaning_rules` entries: price/volume behaviour. -/
def cleaningRulesPrecoVolume : List (String × Cleaner) :=
  [("Preço/Volume - Menor Preço 52 semanas", .currency),
   ("Preço/Volume - Maior Preço 52 semanas", .currency),
   ("Preço/Volume - Variação 2025", .percentage),
   ("Preço/Volume - Variação 1 ano", .percentage),
   ("Preço/Volume - Variação 2 anos(total)", .percentage),
   ("Preço/Volume - Variação 2 anos(anual)", .percentage),
   ("Preço/Volume - Variação 3 anos(total)", .percentage),
   ("Preço/Volume - Variação 3 anos(anual)", .percentage),
   ("Preço/Volume - Variação 4 anos(total)", .percentage),
   ("Preço/Volume - Variação 4 anos(anual)", .percentage),
   ("Preço/Volume - Variação 5 anos(total)", .percentage),
   ("Preço/Volume - Variação 5 anos(anual)", .percentage),
   ("Preço/Volume - Volume Diário Médio (3 meses)", .currencyScale)]

/-- The static `cleaning_rules` table of `clean_stock_data` (lines 1173–1296),
transcribed entry for entry in source order (split into its source-comment
blocks only to keep elaboration fast). -/
def cleaning_rules : List (String × Cleaner) :=
  cleaningRulesPrices ++ cleaningRulesDRE ++ cleaningRulesMargens ++
  cleaningRulesBalanco ++ cleaningRulesFC ++ cleaningRulesPrecoVolume

/-- One field of `clean_stock_data`: a field that is in the rule table and
truthy (non-empty) runs its normalizer, and the value is replaced only when
the normalizer returns non-`None` (`# Só substitui se a limpeza foi
bem-sucedida`); every other field keeps its original value. -/
def cleanEntry (kv : String × String) : String × CellVal :=
  match cleaning_rules.lookup kv.1 with
  | some c =>
    if kv.2 ≠ "" then
      match applyCleaner c kv.2 with
      | some cv => (kv.1, cv)
      | none => (kv.1, CellVal.s kv.2)
    else (kv.1, CellVal.s kv.2)
  | none => (kv.1, CellVal.s kv.2)

/-- `StocksScraper.clean_stock_data` (lines 1167–1318): work on a copy of the
record (`cleaned_data = stock_data.copy()`), transforming each field by
`cleanEntry`; no key is added or removed. -/
def clean_stock_data (d : List (String × String)) : List (String × CellVal) :=
  d.map cleanEntry

/-- The profit-per-share search of `calculate_earnings_yield`: the first key
containing `"Lucro/Ação"` (or whose lower-casing contains
`"lucro por ação"`). -/
def findLucroKey (d : List (String × String)) : Option (String × String) :=
  d.find? fun kv =>
    containsSub "Lucro/Ação".toList kv.1.toList ||
    containsSub "lucro por ação".toList (pyLower kv.1.toList)

/-- Profit per share as `calculate_earnings_yield` obtains it: the first
matching key's value run through `clean_currency_to_float` (the loop breaks
after the first match whether or not the conversion succeeds). -/
def findLucro (d : List (String × String)) : Option ℚ :=
  (findLucroKey d).bind fun kv => clean_currency_to_float kv.2

/-- Last close price as `calculate_earnings_yield` obtains it:
`stock_data.get('Último Preço de Fechamento', '')`, cleaned when truthy. -/
def findPreco (d : List (String × String)) : Option ℚ :=
  let pk := (d.lookup "Último Preço de Fechamento").getD ""
  if pk ≠ "" then clean_currency_to_float pk else none

/-- Python `f"{x:.2f}%"` on the exact-rational model (round-half-to-even,
sign, two fractional digits). -/
def formatPct2 (x : ℚ) : String :=
  let n := rhe (x * 100)
  (if n < 0 then "-" else "") ++ ⟨natToCharsPad 1 (n.natAbs / 100)⟩ ++ "." ++
    ⟨natToCharsPad 2 (n.natAbs % 100)⟩ ++ "%"

/-- `StocksScraper.calculate_earnings_yield` (lines 1129–1165): when both
components normalize and the price is positive, return
`(profit / price) × 100` formatted as a two-decimal percentage string;
otherwise `"N/A"`. -/
def calculate_earnings_yield (d : List (String × String)) : String :=
  match findLucro d, findPreco d with
  | some lucro, some preco =>
    if 0 < preco then formatPct2 (lucro / preco * 100) else "N/A"
  | _, _ => "N/A"

/-- Python dict assignment `d[k] = v`: update in place if the key exists,
else append. -/
def dictSet (d : List (String × String)) (k v : String) : List (String × String) :=
  if d.any fun kv => kv.1 = k then
    d.map fun kv => if kv.1 = k then (k, v) else kv
  else d ++ [(k, v)]

/-- Tail of `StocksScraper.scrape_stock_data` (lines 1112–1127) for a
successfully fetched document, starting from the extracted section fields:
the record starts as `{"Código": code}` plus the extraction, the earnings
yield is added when truthy, the record is cleaned, and a cleaned record with
at most one key is replaced by the `Status: "Nenhuma tabela encontrada"`
record. -/
def scrape_finish (code : String) (extracted : List (String × String)) :
    List (String × CellVal) :=
  let d0 := ("Código", code) :: extracted
  let ey := calculate_earnings_yield d0
  let d1 := if ey ≠ "" then dictSet d0 "Earnings Yield (%)" ey else d0
  let cd := clean_stock_data d1
  if cd.length ≤ 1 then
    [("Código", CellVal.s code), ("Status", CellVal.s "Nenhuma tabela encontrada")]
  else cd

/-- Fuelled batch partition: `range(batch_start, len, batch_size)` slicing of
`scrape_all_stocks` for a positive step (a non-positive step never reaches
this function). -/
def toBatchesAux (bs : ℕ) : ℕ → List α → List (List α)
  | _, [] => []
  | 0, l => [l]
  | fuel + 1, c :: cs =>
    if bs = 0 then [c :: cs]
    else (c :: cs).take bs :: toBatchesAux bs fuel ((c :: cs).drop bs)

/-- Contiguous batches of size `bs` (last batch may be shorter). -/
def toBatches (bs : ℕ) (l : List α) : List (List α) := toBatchesAux bs l.length l

/-- `StocksScraper.scrape_all_stocks` (lines 1320–1388), abstracted over the
per-symbol scraping function (`scrape_stock_data`, total: every exception is
already converted into an error record by the worker loop) and over the order
in which `as_completed` yields each batch's results (`reorder`; theorems
constrain it to a permutation).  A zero `batch_size` raises `ValueError` in
`range` before any batch; a negative one makes `range` empty, so the loop
body never runs; a non-positive `max_workers` raises `ValueError` when the
first batch constructs its `ThreadPoolExecutor`, before any symbol is
fetched. -/
def scrape_all_stocks {ρ : Type} (max_workers batch_size : ℤ)
    (scrape : String → ρ) (reorder : List ρ → List ρ)
    (stock_codes : List String) : Except String (List ρ) :=
  if batch_size = 0 then .error "range() arg 3 must not be zero"
  else if batch_size < 0 then .ok []
  else if max_workers ≤ 0 ∧ stock_codes ≠ [] then
    .error "max_workers must be greater than 0"
  else
    .ok ((toBatches batch_size.toNat stock_codes).map fun batch =>
      reorder (batch.map scrape)).flatten

/-! ## Lemmas: digits and decimal rendering -/

lemma charVal_digitChar {d : ℕ} (h : d < 10) : charVal (digitChar d) = d := by
  interval_cases d <;> rfl

lemma isDigit_digitChar {d : ℕ} (h : d < 10) : (digitChar d).isDigit = true := by
  interval_cases d <;> rfl

lemma digitChar_ne_dot {d : ℕ} (h : d < 10) : digitChar d ≠ '.' := by
  interval_cases d <;> decide

lemma isDigit_not_space {c : Char} (h : c.isDigit = true) : pyIsSpace c = false := by
  cases hsp : pyIsSpace c
  · rfl
  · exfalso
    unfold pyIsSpace at hsp
    simp only [Bool.or_eq_true, decide_eq_true_eq] at hsp
    rcases hsp with ((((rfl | rfl) | rfl) | rfl) | rfl) | rfl <;> simp [Char.isDigit] at h

lemma isDigit_ne_signs {c : Char} (h : c.isDigit = true) :
    c ≠ '-' ∧ c ≠ '+' ∧ c ≠ '.' := by
  refine ⟨?_, ?_, ?_⟩ <;> rintro rfl <;> simp_all

lemma natDigitsAux_lt (fuel n : ℕ) : ∀ d ∈ natDigitsAux fuel n, d < 10 := by
  induction fuel generalizing n with
  | zero => cases n <;> simp [natDigitsAux]
  | succ fuel ih =>
    cases n with
    | zero => simp [natDigitsAux]
    | succ m =>
      intro d hd
      simp only [natDigitsAux, List.mem_cons] at hd
      rcases hd with h | h
      · omega
      · exact ih _ _ h

lemma natDigitsAux_ofDigits (fuel : ℕ) :
    ∀ n, n ≤ fuel → Nat.ofDigits 10 (natDigitsAux fuel n) = n := by
  induction fuel with
  | zero => intro n hn; interval_cases n; simp [natDigitsAux]
  | succ fuel ih =>
    intro n hn
    cases n with
    | zero => simp [natDigitsAux]
    | succ m =>
      have hdiv : (m + 1) / 10 ≤ fuel := by
        have := Nat.div_lt_self (Nat.succ_pos m) (by norm_num : 1 < 10)
        omega
      simp only [natDigitsAux, Nat.ofDigits_cons, ih _ hdiv]
      omega

lemma digitsVal_append_singleton (xs : PyStr) (c : Char) :
    digitsVal (xs ++ [c]) = 10 * digitsVal xs + charVal c := by
  simp [digitsVal, List.foldl_append]

lemma digitsVal_map_reverse (L : List ℕ) (h : ∀ d ∈ L, d < 10) :
    digitsVal (L.reverse.map digitChar) = Nat.ofDigits 10 L := by
  induction L with
  | nil => simp [digitsVal, Nat.ofDigits_nil]
  | cons d L ih =>
    have hd : d < 10 := h d (by simp)
    have hL : ∀ x ∈ L, x < 10 := fun x hx => h x (by simp [hx])
    simp only [List.reverse_cons, List.map_append, List.map_cons, List.map_nil,
      digitsVal_append_singleton, ih hL, Nat.ofDigits_cons, charVal_digitChar hd]
    ring

lemma digitsVal_natToChars (n : ℕ) : digitsVal (natToChars n) = n := by
  unfold natToChars natDigits
  rw [digitsVal_map_reverse _ (natDigitsAux_lt n n), natDigitsAux_ofDigits n n le_rfl]

lemma foldl_digits_replicate_zero (m : ℕ) :
    List.foldl (fun a c => 10 * a + charVal c) 0 (List.replicate m '0') = 0 := by
  induction m with
  | zero => rfl
  | succ m ih => simpa [List.replicate_succ, charVal] using ih

lemma digitsVal_natToCharsPad (len n : ℕ) : digitsVal (natToCharsPad len n) = n := by
  unfold natToCharsPad
  rw [show digitsVal (List.replicate (len - (natToChars n).length) '0' ++ natToChars n) =
      List.foldl (fun a c => 10 * a + charVal c)
        (List.foldl (fun a c => 10 * a + charVal c) 0
          (List.replicate (len - (natToChars n).length) '0')) (natToChars n) from
      List.foldl_append .., foldl_digits_replicate_zero]
  exact digitsVal_natToChars n

lemma mem_natToChars_isDigit {c : Char} {n : ℕ} (h : c ∈ natToChars n) :
    c.isDigit = true := by
  unfold natToChars at h
  obtain ⟨d, hd, rfl⟩ := List.mem_map.mp h
  exact isDigit_digitChar (natDigitsAux_lt n n d (List.mem_reverse.mp hd))

lemma mem_natToCharsPad_isDigit {c : Char} {len n : ℕ} (h : c ∈ natToCharsPad len n) :
    c.isDigit = true := by
  unfold natToCharsPad at h
  rcases List.mem_append.mp h with h | h
  · rw [List.eq_of_mem_replicate h]; rfl
  · exact mem_natToChars_isDigit h

lemma natToCharsPad_length (len n : ℕ) : len ≤ (natToCharsPad len n).length := by
  unfold natToCharsPad
  rw [List.length_append, List.length_replicate]
  omega

lemma takeWhile_eq_self {p : Char → Bool} {l : PyStr} (h : ∀ c ∈ l, p c = true) :
    l.takeWhile p = l := by
  induction l with
  | nil => rfl
  | cons c cs ih =>
    rw [List.takeWhile_cons, h c (by simp)]
    simp [ih fun x hx => h x (by simp [hx])]

lemma takeWhile_append_of_head_false {p : Char → Bool} {A B : PyStr} {b : Char}
    (hA : ∀ c ∈ A, p c = true) (hb : p b = false) :
    (A ++ b :: B).takeWhile p = A ∧ (A ++ b :: B).dropWhile p = b :: B := by
  induction A with
  | nil => simp [List.takeWhile_cons, List.dropWhile_cons, hb]
  | cons a A ih =>
    have ha : p a = true := hA a (by simp)
    have ih' := ih fun c hc => hA c (by simp [hc])
    simp [List.takeWhile_cons, List.dropWhile_cons, ha, ih'.1, ih'.2]

lemma pyLstrip_eq_self {s : PyStr} (h : ∀ c ∈ s, pyIsSpace c = false) :
    pyLstrip s = s := by
  cases s with
  | nil => rfl
  | cons c cs => simp [pyLstrip, h c (by simp)]

lemma pyStrip_eq_self {s : PyStr} (h : ∀ c ∈ s, pyIsSpace c = false) :
    pyStrip s = s := by
  unfold pyStrip pyRstrip
  rw [pyLstrip_eq_self h, pyLstrip_eq_self (fun c hc => h c (List.mem_reverse.mp hc)),
    List.reverse_reverse]

lemma digitOrDot_not_space {c : Char} (h : digitOrDot c = true) : pyIsSpace c = false := by
  rcases Bool.or_eq_true _ _ |>.mp h with h | h
  · exact isDigit_not_space h
  · rw [decide_eq_true_eq] at h; subst h; rfl

lemma pyFloatUnsigned_renderFixed (k n : ℕ) :
    pyFloatUnsigned (renderFixed k n) = some ((n : ℚ) / 10 ^ k) := by
  unfold renderFixed
  set ds := natToCharsPad (k + 1) n with hds
  have hlen : k + 1 ≤ ds.length := natToCharsPad_length _ _
  set A := ds.take (ds.length - k) with hA
  set B := ds.drop (ds.length - k) with hB
  have hAB : A ++ B = ds := List.take_append_drop _ _
  have hdsdig : ∀ c ∈ ds, c.isDigit = true := fun c hc => mem_natToCharsPad_isDigit hc
  have hAdig : ∀ c ∈ A, c.isDigit = true := fun c hc =>
    hdsdig c (by rw [← hAB]; exact List.mem_append_left _ hc)
  have hBdig : ∀ c ∈ B, c.isDigit = true := fun c hc =>
    hdsdig c (by rw [← hAB]; exact List.mem_append_right _ hc)
  have hAlen : A.length = ds.length - k := by
    rw [hA, List.length_take]; omega
  have hBlen : B.length = k := by
    rw [hB, List.length_drop]; omega
  obtain ⟨a, A', hAcons⟩ : ∃ a A', A = a :: A' := by
    cases hAc : A with
    | nil => exfalso; rw [hAc] at hAlen; simp at hAlen; omega
    | cons a A' => exact ⟨a, A', rfl⟩
  have hadig : a.isDigit = true := hAdig a (by rw [hAcons]; simp)
  unfold pyFloatUnsigned
  rw [if_pos]
  · have htw := takeWhile_append_of_head_false (p := fun c => decide (c ≠ '.'))
      (A := A) (B := B) (b := '.')
      (fun c hc => by simp only [decide_eq_true_eq]; exact (isDigit_ne_signs (hAdig c hc)).2.2)
      (by simp)
    rw [htw.1, htw.2]
    simp only [List.drop_succ_cons, List.drop_zero]
    rw [hAB, digitsVal_natToCharsPad, hBlen]
  · refine ⟨?_, ?_, ?_⟩
    · rw [List.all_eq_true]
      intro c hc
      rcases List.mem_append.mp hc with hc | hc
      · exact Bool.or_eq_true _ _ |>.mpr (Or.inl (hAdig c hc))
      · rcases List.mem_cons.mp hc with rfl | hc
        · rfl
        · exact Bool.or_eq_true _ _ |>.mpr (Or.inl (hBdig c hc))
    · have hcA : A.count '.' = 0 := List.count_eq_zero.mpr fun hmem =>
        (isDigit_ne_signs (hAdig _ hmem)).2.2 rfl
      have hcB : B.count '.' = 0 := List.count_eq_zero.mpr fun hmem =>
        (isDigit_ne_signs (hBdig _ hmem)).2.2 rfl
      rw [List.count_append, hcA, List.count_cons_self, hcB]
    · rw [List.any_eq_true]
      exact ⟨a, List.mem_append_left _ (by rw [hAcons]; simp), hadig⟩

lemma renderFixed_head_digit (k n : ℕ) :
    ∃ a rest, renderFixed k n = a :: rest ∧ a.isDigit = true := by
  unfold renderFixed
  set ds := natToCharsPad (k + 1) n with hds
  have hlen : k + 1 ≤ ds.length := natToCharsPad_length _ _
  have hAlen : (ds.take (ds.length - k)).length = ds.length - k := by
    rw [List.length_take]; omega
  cases hAc : ds.take (ds.length - k) with
  | nil => rw [hAc] at hAlen; simp at hAlen; omega
  | cons a A' =>
    refine ⟨a, A' ++ '.' :: ds.drop (ds.length - k), rfl, ?_⟩
    have : a ∈ ds.take (ds.length - k) := by rw [hAc]; simp
    exact mem_natToCharsPad_isDigit (List.mem_of_mem_take this)

lemma renderFixed_all_digitOrDot (k n : ℕ) :
    ∀ c ∈ renderFixed k n, digitOrDot c = true := by
  unfold renderFixed
  intro c hc
  rcases List.mem_append.mp hc with hc | hc
  · exact Bool.or_eq_true _ _ |>.mpr
      (Or.inl (mem_natToCharsPad_isDigit (List.mem_of_mem_take hc)))
  · rcases List.mem_cons.mp hc with rfl | hc
    · rfl
    · exact Bool.or_eq_true _ _ |>.mpr
        (Or.inl (mem_natToCharsPad_isDigit (List.mem_of_mem_drop hc)))

lemma renderFixed_nonspace (k n : ℕ) :
    ∀ c ∈ renderFixed k n, pyIsSpace c = false := fun c hc =>
  digitOrDot_not_space (renderFixed_all_digitOrDot k n c hc)

lemma pyFloat_renderFixed (k n : ℕ) :
    pyFloat (renderFixed k n) = some ((n : ℚ) / 10 ^ k) := by
  obtain ⟨a, rest, heq, hadig⟩ := renderFixed_head_digit k n
  have hsigns := isDigit_ne_signs hadig
  unfold pyFloat
  rw [pyStrip_eq_self (renderFixed_nonspace k n), heq]
  show (if a = '-' then (pyFloatUnsigned rest).map (fun x => -x)
      else if a = '+' then pyFloatUnsigned rest
      else pyFloatUnsigned (a :: rest)) = some ((n : ℚ) / 10 ^ k)
  rw [if_neg hsigns.1, if_neg hsigns.2.1, ← heq, pyFloatUnsigned_renderFixed]

lemma pyFloat_neg_renderFixed (k n : ℕ) :
    pyFloat ('-' :: renderFixed k n) = some (-((n : ℚ) / 10 ^ k)) := by
  unfold pyFloat
  rw [pyStrip_eq_self (s := '-' :: renderFixed k n) ?hns]
  case hns =>
    intro c hc
    rcases List.mem_cons.mp hc with rfl | hc
    · rfl
    · exact renderFixed_nonspace k n c hc
  show (if '-' = '-' then (pyFloatUnsigned (renderFixed k n)).map (fun x => -x)
      else if '-' = '+' then pyFloatUnsigned (renderFixed k n)
      else pyFloatUnsigned ('-' :: renderFixed k n)) = some (-((n : ℚ) / 10 ^ k))
  rw [if_pos rfl, pyFloatUnsigned_renderFixed]
  rfl

lemma searchSignedNum_renderFixed (k n : ℕ) :
    searchSignedNum (renderFixed k n) = some (renderFixed k n) := by
  obtain ⟨a, rest, heq, hadig⟩ := renderFixed_head_digit k n
  have hdd : digitOrDot a = true := Bool.or_eq_true _ _ |>.mpr (Or.inl hadig)
  rw [heq]
  show (if digitOrDot a = true then some (a :: rest.takeWhile digitOrDot)
      else if (a = '-' ∨ a = '+') ∧ headDigitOrDot rest = true then
        some (a :: rest.takeWhile digitOrDot)
      else searchSignedNum rest) = some (a :: rest)
  rw [if_pos hdd,
    takeWhile_eq_self fun c hc => renderFixed_all_digitOrDot k n c (by rw [heq]; simp [hc])]

lemma searchSignedNum_neg_renderFixed (k n : ℕ) :
    searchSignedNum ('-' :: renderFixed k n) = some ('-' :: renderFixed k n) := by
  obtain ⟨a, rest, heq, hadig⟩ := renderFixed_head_digit k n
  show (if digitOrDot '-' = true then some ('-' :: (renderFixed k n).takeWhile digitOrDot)
      else if ('-' = '-' ∨ '-' = '+') ∧ headDigitOrDot (renderFixed k n) = true then
        some ('-' :: (renderFixed k n).takeWhile digitOrDot)
      else searchSignedNum (renderFixed k n)) = some ('-' :: renderFixed k n)
  rw [if_neg (by simp [digitOrDot]),
    if_pos ⟨Or.inl rfl, by rw [heq]; simp [headDigitOrDot, digitOrDot, hadig]⟩,
    takeWhile_eq_self (renderFixed_all_digitOrDot k n)]

lemma den_dvd_of_mul_pow_den_one {q : ℚ} {e : ℕ} (h : (q * 10 ^ e).den = 1) :
    q.den ∣ 10 ^ e := by
  have hz : ((q * 10 ^ e).num : ℚ) = q * 10 ^ e := (Rat.den_eq_one_iff _).mp h
  have hq : q = Rat.divInt ((q * 10 ^ e).num) ((10 : ℤ) ^ e) := by
    rw [Rat.divInt_eq_div, hz]
    push_cast
    field_simp
  have hdvd := Rat.den_dvd ((q * 10 ^ e).num) ((10 : ℤ) ^ e)
  rw [← hq] at hdvd
  exact_mod_cast hdvd

lemma dvd_ten_pow_self (d : ℕ) : ∀ e, d ∣ 10 ^ e → d ∣ 10 ^ d := by
  induction d using Nat.strong_induction_on with
  | _ d ih =>
    intro e hde
    rcases Nat.lt_or_ge d 2 with hd2 | hd2
    · interval_cases d
      · exfalso
        have h0 : (10 : ℕ) ^ e = 0 := Nat.eq_zero_of_zero_dvd hde
        have hne : (10 : ℕ) ^ e ≠ 0 := by positivity
        exact hne h0
      · simp
    · obtain ⟨p, hp, hpd⟩ := Nat.exists_prime_and_dvd (by omega : d ≠ 1)
      have hp10 : p ∣ 10 := hp.dvd_of_dvd_pow (hpd.trans hde)
      have hp2 : 2 ≤ p := hp.two_le
      have hd' := Nat.div_dvd_of_dvd hpd
      have hdp : d = p * (d / p) := (Nat.mul_div_cancel' hpd).symm
      have hd'pos : 0 < d / p := by
        rcases Nat.eq_zero_or_pos (d / p) with h0 | hpos
        · rw [h0, mul_zero] at hdp; omega
        · exact hpos
      have hd'lt : d / p < d := by
        have := Nat.mul_le_mul_right (d / p) hp2
        omega
      have ihd' : d / p ∣ 10 ^ (d / p) := ih (d / p) hd'lt e (hd'.trans hde)
      have h1 : p * (d / p) ∣ 10 ^ (d / p + 1) := by
        rw [pow_succ']
        exact mul_dvd_mul hp10 ihd'
      exact ((dvd_of_eq hdp).trans h1).trans (pow_dvd_pow 10 (by omega))

lemma mul_pow_den_one_of_dvd {q : ℚ} {k : ℕ} (h : q.den ∣ 10 ^ k) :
    (q * 10 ^ k).den = 1 := by
  obtain ⟨c, hc⟩ := h
  have hden0 : ((q.den : ℚ)) ≠ 0 := by exact_mod_cast q.den_ne_zero
  have hqden : q * (q.den : ℚ) = (q.num : ℚ) := by
    rw [eq_comm, ← div_eq_iff hden0]
    exact Rat.num_div_den q
  have hq : q * 10 ^ k = ((q.num * (c : ℤ) : ℤ) : ℚ) := by
    have h10 : ((10 : ℚ)) ^ k = (q.den : ℚ) * (c : ℚ) := by exact_mod_cast hc
    calc q * 10 ^ k = q * ((q.den : ℚ) * (c : ℚ)) := by rw [h10]
      _ = q * (q.den : ℚ) * (c : ℚ) := by ring
      _ = (q.num : ℚ) * (c : ℚ) := by rw [hqden]
      _ = ((q.num * (c : ℤ) : ℤ) : ℚ) := by push_cast; ring
  rw [hq, Rat.den_intCast]

lemma pyFloatRepr_mul_den_one (q : ℚ) (e : ℕ) (he : (q * 10 ^ e).den = 1) :
    (q * 10 ^ (max 1 q.den)).den = 1 :=
  mul_pow_den_one_of_dvd
    ((dvd_ten_pow_self q.den e (den_dvd_of_mul_pow_den_one he)).trans
      (pow_dvd_pow 10 (le_max_right 1 q.den)))

/-- On every terminating-decimal rational, `repr` followed by the signed
number regex and `float` is the identity on values. -/
lemma pyFloatRepr_roundtrip (q : ℚ) (e : ℕ) (he : (q * 10 ^ e).den = 1) :
    searchSignedNum (pyFloatRepr q) = some (pyFloatRepr q) ∧
      pyFloat (pyFloatRepr q) = some q := by
  have hden1 : (q * 10 ^ (max 1 q.den)).den = 1 := pyFloatRepr_mul_den_one q e he
  set k := max 1 q.den with hk
  have hnum : (((q * 10 ^ k).num : ℚ)) = q * 10 ^ k := (Rat.den_eq_one_iff _).mp hden1
  have h10 : ((10 : ℚ)) ^ k ≠ 0 := by positivity
  by_cases hneg : q < 0
  · have hrepr : pyFloatRepr q = '-' :: renderFixed k (q * 10 ^ k).num.natAbs := by
      unfold pyFloatRepr
      rw [if_pos hneg]
      rfl
    have hqneg : q * 10 ^ k < 0 := mul_neg_of_neg_of_pos hneg (by positivity)
    have hnumneg : (q * 10 ^ k).num < 0 := by
      by_contra hcon
      exact absurd (Rat.num_nonneg.mp (by omega)) (not_le.mpr hqneg)
    have habs : (((q * 10 ^ k).num.natAbs : ℕ) : ℚ) = -(q * 10 ^ k) := by
      have hz : (((q * 10 ^ k).num.natAbs : ℕ) : ℤ) = -(q * 10 ^ k).num := by omega
      calc (((q * 10 ^ k).num.natAbs : ℕ) : ℚ)
          = ((((q * 10 ^ k).num.natAbs : ℕ) : ℤ) : ℚ) := (Int.cast_natCast _).symm
        _ = ((-(q * 10 ^ k).num : ℤ) : ℚ) := by rw [hz]
        _ = -(q * 10 ^ k) := by rw [Int.cast_neg, hnum]
    refine ⟨by rw [hrepr]; exact searchSignedNum_neg_renderFixed _ _, ?_⟩
    rw [hrepr, pyFloat_neg_renderFixed]
    congr 1
    rw [habs]
    field_simp
  · have hrepr : pyFloatRepr q = renderFixed k (q * 10 ^ k).num.natAbs := by
      unfold pyFloatRepr
      rw [if_neg hneg]
      rfl
    have hq0 : 0 ≤ q * 10 ^ k := mul_nonneg (not_lt.mp hneg) (by positivity)
    have hnumpos : 0 ≤ (q * 10 ^ k).num := Rat.num_nonneg.mpr hq0
    have habs : (((q * 10 ^ k).num.natAbs : ℕ) : ℚ) = q * 10 ^ k := by
      have hz : (((q * 10 ^ k).num.natAbs : ℕ) : ℤ) = (q * 10 ^ k).num := by omega
      calc (((q * 10 ^ k).num.natAbs : ℕ) : ℚ)
          = ((((q * 10 ^ k).num.natAbs : ℕ) : ℤ) : ℚ) := (Int.cast_natCast _).symm
        _ = (((q * 10 ^ k).num : ℤ) : ℚ) := by rw [hz]
        _ = q * 10 ^ k := hnum
    refine ⟨by rw [hrepr]; exact searchSignedNum_renderFixed _ _, ?_⟩
    rw [hrepr, pyFloat_renderFixed]
    congr 1
    rw [habs]
    field_simp

/-- The tail of `clean_percentage_to_float` applied to a rendered value. -/
lemma searchSignedNum_bind_pyFloatRepr (q : ℚ) (e : ℕ) (he : (q * 10 ^ e).den = 1) :
    ((searchSignedNum (pyFloatRepr q)).bind fun m => (pyFloat m).map round2) =
      some (round2 q) := by
  obtain ⟨hs, hf⟩ := pyFloatRepr_roundtrip q e he
  rw [hs, Option.some_bind, hf, Option.map_some']

lemma pyFloatUnsigned_terminating {cs : PyStr} {w : ℚ}
    (h : pyFloatUnsigned cs = some w) : ∃ e : ℕ, (w * 10 ^ e).den = 1 := by
  unfold pyFloatUnsigned at h
  split at h
  · refine ⟨((cs.dropWhile (fun c => c ≠ '.')).drop 1).length, ?_⟩
    have hw := Option.some.inj h
    rw [← hw, div_mul_cancel₀ _ (by positivity :
      ((10 : ℚ)) ^ ((cs.dropWhile (fun c => c ≠ '.')).drop 1).length ≠ 0)]
    exact Rat.den_natCast _
  · exact absurd h (by simp)

lemma pyFloat_terminating {cs : PyStr} {v : ℚ} (h : pyFloat cs = some v) :
    ∃ e : ℕ, (v * 10 ^ e).den = 1 := by
  unfold pyFloat at h
  rcases hstrip : pyStrip cs with _ | ⟨c, rest⟩ <;> rw [hstrip] at h
  · exact absurd h (by simp)
  · replace h : (if c = '-' then (pyFloatUnsigned rest).map (fun x => -x)
        else if c = '+' then pyFloatUnsigned rest
        else pyFloatUnsigned (c :: rest)) = some v := h
    by_cases h1 : c = '-'
    · rw [if_pos h1] at h
      rcases hup : pyFloatUnsigned rest with _ | w <;> rw [hup] at h
      · exact absurd h (by simp)
      · obtain ⟨e, he⟩ := pyFloatUnsigned_terminating hup
        refine ⟨e, ?_⟩
        have hv : v = -w := by
          simp only [Option.map_some'] at h
          exact (Option.some.inj h).symm
        rw [hv, neg_mul, Rat.neg_den]
        exact he
    · rw [if_neg h1] at h
      by_cases h2 : c = '+'
      · rw [if_pos h2] at h
        exact pyFloatUnsigned_terminating h
      · rw [if_neg h2] at h
        exact pyFloatUnsigned_terminating h

/-! ## Lemmas: `pyReplace`, `pyStrip` and substring containment -/

lemma pyReplaceAux_fuel_irrel (pat rep : PyStr) :
    ∀ (n : ℕ) (s : PyStr), s.length ≤ n →
      ∀ f₁ f₂, s.length ≤ f₁ → s.length ≤ f₂ →
        pyReplaceAux pat rep f₁ s = pyReplaceAux pat rep f₂ s := by
  intro n
  induction n with
  | zero =>
    intro s hs f₁ f₂ _ _
    have : s = [] := List.length_eq_zero.mp (by omega)
    subst this
    cases f₁ <;> cases f₂ <;> rfl
  | succ n ih =>
    intro s hs f₁ f₂ h₁ h₂
    cases s with
    | nil => cases f₁ <;> cases f₂ <;> rfl
    | cons c cs =>
      have hf₁ : ∃ g₁, f₁ = g₁ + 1 := by
        cases f₁
        · simp at h₁
        · exact ⟨_, rfl⟩
      have hf₂ : ∃ g₂, f₂ = g₂ + 1 := by
        cases f₂
        · simp at h₂
        · exact ⟨_, rfl⟩
      obtain ⟨g₁, rfl⟩ := hf₁
      obtain ⟨g₂, rfl⟩ := hf₂
      simp only [pyReplaceAux]
      by_cases hcond : startsWithPat pat (c :: cs) = true ∧ pat ≠ []
      · rw [if_pos hcond, if_pos hcond]
        have hpat : 1 ≤ pat.length := by
          cases pat
          · exact absurd rfl hcond.2
          · simp
        have hdrop : ((c :: cs).drop pat.length).length ≤ n := by
          rw [List.length_drop]
          simp only [List.length_cons] at hs ⊢
          omega
        have hd₁ : ((c :: cs).drop pat.length).length ≤ g₁ := by
          rw [List.length_drop]
          simp only [List.length_cons] at h₁ ⊢
          omega
        have hd₂ : ((c :: cs).drop pat.length).length ≤ g₂ := by
          rw [List.length_drop]
          simp only [List.length_cons] at h₂ ⊢
          omega
        rw [ih _ hdrop g₁ g₂ hd₁ hd₂]
      · rw [if_neg hcond, if_neg hcond]
        have hcs : cs.length ≤ n := by
          simp only [List.length_cons] at hs
          omega
        rw [ih cs hcs g₁ g₂ (by simp only [List.length_cons] at h₁; omega)
          (by simp only [List.length_cons] at h₂; omega)]

lemma pyReplaceAux_eq_pyReplace (pat rep : PyStr) {f : ℕ} {s : PyStr}
    (hf : s.length ≤ f) : pyReplaceAux pat rep f s = pyReplace pat rep s :=
  pyReplaceAux_fuel_irrel pat rep s.length s le_rfl f s.length hf le_rfl

lemma pyReplace_nil (pat rep : PyStr) : pyReplace pat rep [] = [] := rfl

lemma pyReplace_cons_hit {pat : PyStr} (rep : PyStr) {c : Char} {cs : PyStr}
    (h1 : startsWithPat pat (c :: cs) = true) (h2 : pat ≠ []) :
    pyReplace pat rep (c :: cs) = rep ++ pyReplace pat rep ((c :: cs).drop pat.length) := by
  have hpat : 1 ≤ pat.length := by
    cases pat
    · exact absurd rfl h2
    · simp
  show pyReplaceAux pat rep (cs.length + 1) (c :: cs) = _
  simp only [pyReplaceAux, if_pos (And.intro h1 h2)]
  rw [pyReplaceAux_eq_pyReplace pat rep
    (by rw [List.length_drop]; simp only [List.length_cons]; omega)]

lemma pyReplace_cons_miss {pat : PyStr} (rep : PyStr) {c : Char} {cs : PyStr}
    (h : startsWithPat pat (c :: cs) = false) :
    pyReplace pat rep (c :: cs) = c :: pyReplace pat rep cs := by
  show pyReplaceAux pat rep (cs.length + 1) (c :: cs) = _
  simp only [pyReplaceAux, h]
  rw [if_neg (by simp), pyReplaceAux_eq_pyReplace pat rep le_rfl]

lemma containsSub_of_startsWithPat {pat s : PyStr} (h : startsWithPat pat s = true) :
    containsSub pat s = true := by
  cases s with
  | nil => exact h
  | cons c cs => simp [containsSub, h]

lemma pyLstrip_cons_of_not_space {c : Char} (cs : PyStr) (h : pyIsSpace c = false) :
    pyLstrip (c :: cs) = c :: cs := by
  simp [pyLstrip, h]

lemma pyLstrip_append (x y : PyStr) :
    pyLstrip (x ++ y) = if pyLstrip x = [] then pyLstrip y else pyLstrip x ++ y := by
  induction x with
  | nil => simp [pyLstrip]
  | cons c cs ih =>
    by_cases hc : pyIsSpace c
    · simp only [List.cons_append, pyLstrip, hc, if_true]
      exact ih
    · simp [pyLstrip, hc]

lemma pyRstrip_reverse_eq (s : PyStr) : pyLstrip s.reverse = (pyRstrip s).reverse := by
  rw [pyRstrip, List.reverse_reverse]

lemma pyRstrip_append_of_ne_nil {b : PyStr} (a : PyStr) (h : pyRstrip b ≠ []) :
    pyRstrip (a ++ b) = a ++ pyRstrip b := by
  rw [pyRstrip, List.reverse_append, pyLstrip_append]
  rw [pyRstrip_reverse_eq b]
  rw [if_neg (by simpa using h)]
  simp

lemma pyRstrip_append_of_nil {b : PyStr} (a : PyStr) (h : pyRstrip b = []) :
    pyRstrip (a ++ b) = pyRstrip a := by
  rw [pyRstrip, List.reverse_append, pyLstrip_append]
  rw [pyRstrip_reverse_eq b]
  rw [if_pos (by simp [h])]
  rfl

lemma startsWithPat_cons_false {p c : Char} (h : (p == c) = false) (ps cs : PyStr) :
    startsWithPat (p :: ps) (c :: cs) = false := by
  simp [startsWithPat, h]

lemma startsWithPat_self_append (pat x : PyStr) : startsWithPat pat (pat ++ x) = true := by
  induction pat with
  | nil => cases x <;> rfl
  | cons p ps ih => simp [startsWithPat, ih]

lemma repl_RS_left (u : PyStr) :
    pyReplace ['R', '$'] [] ('-' :: ' ' :: 'R' :: '$' :: ' ' :: u) =
      '-' :: ' ' :: ' ' :: pyReplace ['R', '$'] [] u := by
  rw [pyReplace_cons_miss [] (startsWithPat_cons_false (by decide) _ _),
    pyReplace_cons_miss [] (startsWithPat_cons_false (by decide) _ _),
    pyReplace_cons_hit [] (by simp [startsWithPat]) (by simp)]
  simp only [List.length_cons, List.length_nil, List.drop_succ_cons, List.drop_zero,
    List.nil_append]
  rw [pyReplace_cons_miss [] (startsWithPat_cons_false (by decide) _ _)]

lemma repl_RS_right (u : PyStr) :
    pyReplace ['R', '$'] [] ('R' :: '$' :: ' ' :: '-' :: u) =
      ' ' :: '-' :: pyReplace ['R', '$'] [] u := by
  rw [pyReplace_cons_hit [] (by simp [startsWithPat]) (by simp)]
  simp only [List.length_cons, List.length_nil, List.drop_succ_cons, List.drop_zero,
    List.nil_append]
  rw [pyReplace_cons_miss [] (startsWithPat_cons_false (by decide) _ _),
    pyReplace_cons_miss [] (startsWithPat_cons_false (by decide) _ _)]

lemma repl_Rsp_left (v : PyStr) :
    pyReplace ['R', ' '] [] ('-' :: ' ' :: ' ' :: v) =
      '-' :: ' ' :: ' ' :: pyReplace ['R', ' '] [] v := by
  rw [pyReplace_cons_miss [] (startsWithPat_cons_false (by decide) _ _),
    pyReplace_cons_miss [] (startsWithPat_cons_false (by decide) _ _),
    pyReplace_cons_miss [] (startsWithPat_cons_false (by decide) _ _)]

lemma repl_Rsp_right (v : PyStr) :
    pyReplace ['R', ' '] [] (' ' :: '-' :: v) =
      ' ' :: '-' :: pyReplace ['R', ' '] [] v := by
  rw [pyReplace_cons_miss [] (startsWithPat_cons_false (by decide) _ _),
    pyReplace_cons_miss [] (startsWithPat_cons_false (by decide) _ _)]

lemma repl_dash_left (w : PyStr) :
    pyReplace ['-'] [] ('-' :: ' ' :: ' ' :: w) = ' ' :: ' ' :: pyReplace ['-'] [] w := by
  rw [pyReplace_cons_hit [] (by simp [startsWithPat]) (by simp)]
  simp only [List.length_cons, List.length_nil, List.drop_succ_cons, List.drop_zero,
    List.nil_append]
  rw [pyReplace_cons_miss [] (startsWithPat_cons_false (by decide) _ _),
    pyReplace_cons_miss [] (startsWithPat_cons_false (by decide) _ _)]

lemma repl_dash_right (w : PyStr) :
    pyReplace ['-'] [] (' ' :: '-' :: w) = ' ' :: pyReplace ['-'] [] w := by
  rw [pyReplace_cons_miss [] (startsWithPat_cons_false (by decide) _ _),
    pyReplace_cons_hit [] (by simp [startsWithPat]) (by simp)]
  simp only [List.length_cons, List.length_nil, List.drop_succ_cons, List.drop_zero,
    List.nil_append]

lemma repl_space_left (x : PyStr) :
    pyReplace [' '] [] (' ' :: ' ' :: x) = pyReplace [' '] [] x := by
  rw [pyReplace_cons_hit [] (by simp [startsWithPat]) (by simp)]
  simp only [List.length_cons, List.length_nil, List.drop_succ_cons, List.drop_zero,
    List.nil_append]
  rw [pyReplace_cons_hit [] (by simp [startsWithPat]) (by simp)]
  simp only [List.length_cons, List.length_nil, List.drop_succ_cons, List.drop_zero,
    List.nil_append]

lemma repl_space_right (x : PyStr) :
    pyReplace [' '] [] (' ' :: x) = pyReplace [' '] [] x := by
  rw [pyReplace_cons_hit [] (by simp [startsWithPat]) (by simp)]
  simp only [List.length_cons, List.length_nil, List.drop_succ_cons, List.drop_zero,
    List.nil_append]

/-- Both ways of placing the minus sign around the currency marker leave the
same string after `clean_currency_to_float`'s four `replace` calls. -/
lemma currencyStripSyms_sign_eq (u : PyStr) :
    currencyStripSyms ('-' :: ' ' :: 'R' :: '$' :: ' ' :: u) =
      currencyStripSyms ('R' :: '$' :: ' ' :: '-' :: u) := by
  unfold currencyStripSyms
  rw [repl_RS_left, repl_RS_right, repl_Rsp_left, repl_Rsp_right, repl_dash_left,
    repl_dash_right, repl_space_left, repl_space_right]

lemma currencyNeg_dash (u : PyStr) : currencyNeg ('-' :: u) = true := by
  simp [currencyNeg, startsWithPat]

lemma currencyNeg_marker_dash (u : PyStr) :
    currencyNeg ('R' :: '$' :: ' ' :: '-' :: u) = true := by
  have h : containsSub ['R', '$', ' ', '-'] ('R' :: '$' :: ' ' :: '-' :: u) = true :=
    containsSub_of_startsWithPat (by simp [startsWithPat])
  simp [currencyNeg, h]

lemma not_sentinel_of_length {s : String} (h0 : s.length ≠ 0) (h3 : s.length ≠ 3)
    (h1 : s.length ≠ 1) : ¬ isSentinel s := by
  unfold isSentinel
  rintro (rfl | rfl | rfl)
  · exact h0 rfl
  · exact h3 rfl
  · exact h1 rfl

/-! ## Lemmas: batching -/

lemma toBatchesAux_flatten {α : Type} {bs : ℕ} (hbs : 1 ≤ bs) :
    ∀ (fuel : ℕ) (l : List α), l.length ≤ fuel → (toBatchesAux bs fuel l).flatten = l := by
  intro fuel
  induction fuel with
  | zero =>
    intro l hl
    have : l = [] := List.length_eq_zero.mp (by omega)
    subst this
    rfl
  | succ fuel ih =>
    intro l hl
    cases l with
    | nil => rfl
    | cons c cs =>
      simp only [toBatchesAux]
      rw [if_neg (by omega)]
      rw [List.flatten_cons, ih ((c :: cs).drop bs)
        (by rw [List.length_drop]; simp only [List.length_cons] at hl ⊢; omega)]
      exact List.take_append_drop _ _

lemma toBatches_flatten {α : Type} (bs : ℕ) (hbs : 1 ≤ bs) (l : List α) :
    (toBatches bs l).flatten = l :=
  toBatchesAux_flatten hbs l.length l le_rfl

lemma flatten_map_reorder_perm {ρ : Type} (reorder : List ρ → List ρ)
    (h : ∀ l, List.Perm (reorder l) l) :
    ∀ L : List (List ρ), List.Perm ((L.map reorder).flatten) L.flatten := by
  intro L
  induction L with
  | nil => exact List.Perm.refl _
  | cons b L ih =>
    simp only [List.map_cons, List.flatten_cons]
    exact (h b).append ih

/-! ## Claim theorems

`Rat.mul`/`add`/`sub`/`inv`/`ofScientific` are `@[irreducible]` in Batteries,
which blocks `decide` from evaluating the model on concrete inputs; restore
the default reducibility locally so that concrete runs of the cleaners reduce
inside the kernel. -/

attribute [local semireducible] Rat.mul Rat.add Rat.sub Rat.inv Rat.ofScientific

/-- C2: the scaled-currency normalizer decodes the trailing scale token
(B→1e9, MIL→1e3, M→1e6, K→1e3, case-insensitive, checked in the order B, MIL,
M, K) and multiplies the parsed number by it, reapplying the sign:
`R$ 1,5 M` ↦ 1 500 000.00, `- R$ 7,15 B` ↦ −7 150 000 000.00, and
`R$ 250,30 mil` ↦ 250 300.00 (the `mil` example shows both case-insensitivity
and that MIL is recognised before M); lowercase `b` and `K` probes confirm
the remaining token decodings. -/
theorem clean_currency_with_scale_decode :
    clean_currency_with_scale_to_float "R$ 1,5 M" = some 1500000 ∧
    clean_currency_with_scale_to_float "- R$ 7,15 B" = some (-7150000000) ∧
    clean_currency_with_scale_to_float "R$ 250,30 mil" = some 250300 ∧
    clean_currency_with_scale_to_float "R$ 2 K" = some 2000 ∧
    clean_currency_with_scale_to_float "R$ 3 b" = some 3000000000 := by
  refine ⟨?_, ?_, ?_, ?_, ?_⟩ <;> decide

/-- C4 (failing input): for a successfully fetched document with zero
recognized data sections, `scrape_stock_data` does NOT return the
empty-classified `{"Código", "Status": "Nenhuma tabela encontrada"}` record:
`calculate_earnings_yield` always returns a truthy string (at worst `"N/A"`),
so the `"Earnings Yield (%)"` key is added before the `len(cleaned_data) <= 1`
check, which is therefore dead code, and the record
`{"Código": code, "Earnings Yield (%)": "N/A"}` is returned instead. -/
theorem scrape_finish_no_empty_classification :
    scrape_finish "TEST1" [] =
      [("Código", CellVal.s "TEST1"), ("Earnings Yield (%)", CellVal.s "N/A")] ∧
    ¬ ("Status" ∈ (scrape_finish "TEST1" []).map Prod.fst) := by
  constructor <;> decide

/-- C8 (counterexample): `clean_date_to_format` does not degrade an internal
parse failure to `none` — on input `"hello"`, which matches none of the four
date formats, it returns the original value. -/
theorem clean_date_parse_failure_keeps_original :
    clean_date_to_format "hello" = some "hello" ∧
      clean_date_to_format "hello" ≠ none := by
  constructor <;> decide

/-- C8 (amended): all six normalizers return `none` on the sentinels `""`,
`"N/A"` and `"-"`, and never propagate an exception (in the model every
cleaner is a total function into `Option`); an internal parse failure
degrades to `none` for the five numeric normalizers, while the date
normalizer returns the input unchanged when no format matches. -/
theorem cleaners_sentinel_and_failure_behavior :
    (clean_currency_to_float "" = none ∧ clean_currency_to_float "N/A" = none ∧
      clean_currency_to_float "-" = none) ∧
    (clean_currency_with_scale_to_float "" = none ∧
      clean_currency_with_scale_to_float "N/A" = none ∧
      clean_currency_with_scale_to_float "-" = none) ∧
    (clean_percentage_to_float "" = none ∧ clean_percentage_to_float "N/A" = none ∧
      clean_percentage_to_float "-" = none) ∧
    (clean_ratio_to_float "" = none ∧ clean_ratio_to_float "N/A" = none ∧
      clean_ratio_to_float "-" = none) ∧
    (clean_integer "" = none ∧ clean_integer "N/A" = none ∧ clean_integer "-" = none) ∧
    (clean_date_to_format "" = none ∧ clean_date_to_format "N/A" = none ∧
      clean_date_to_format "-" = none) ∧
    (clean_currency_to_float "abc" = none ∧
      clean_currency_with_scale_to_float "xyz" = none ∧
      clean_percentage_to_float "abc" = none ∧
      clean_ratio_to_float "abc" = none ∧
      clean_integer "abc" = none) ∧
    clean_date_to_format "hello" = some "hello" := by
  refine ⟨⟨?_, ?_, ?_⟩, ⟨?_, ?_, ?_⟩, ⟨?_, ?_, ?_⟩, ⟨?_, ?_, ?_⟩, ⟨?_, ?_, ?_⟩,
    ⟨?_, ?_, ?_⟩, ⟨?_, ?_, ?_, ?_, ?_⟩, ?_⟩ <;> decide

/-- C6 (counterexample): the claim asserts the ÷1000 correction for every
dot-only percentage whose last dot group has more than two digits, but on
`"0.500%"` the code skips the correction (the dot-stripped value 500 is below
the `abs(temp_result) >= 1000` threshold) and returns 500.00 rather than the
÷1000 result 0.50. -/
theorem clean_percentage_small_dot_only_counterexample :
    clean_percentage_to_float "0.500%" = some 500 ∧
      (500 : ℚ) ≠ round2 (500 / 1000) := by
  constructor <;> decide

/-- C1: on every non-sentinel input containing both `'.'` and `','`, the
percentage normalizer strips `%`, removes the dots as thousands separators,
treats the comma as the decimal point (the hypothesis that the transformed
string `float`-parses to `v` captures exactly this), and unconditionally
divides the result by 1000 — no magnitude test guards the division, in
contrast to the dot-only branch.  The range hypothesis keeps `v/1000` inside
the region where CPython `str` prints positional notation, which is what
`pyFloatRepr` models.  In particular
`clean_percentage_to_float "-18.000,00%" = -18.00`. -/
theorem clean_percentage_both_separators_div1000 :
    (∀ (s : String) (v : ℚ),
      ¬ isSentinel s →
      (pctPreClean s).contains '.' = true →
      (pctPreClean s).contains ',' = true →
      pyFloat (pyReplace [','] ['.'] (pyReplace ['.'] [] (pctPreClean s))) = some v →
      (v = 0 ∨ (1 / 10 ≤ |v| ∧ |v| < 10 ^ 19)) →
      clean_percentage_to_float s = some (round2 (v / 1000))) ∧
    clean_percentage_to_float "-18.000,00%" = some (-18) := by
  constructor
  · intro s v hs hdot hcomma hparse _hrange
    unfold clean_percentage_to_float
    rw [if_neg hs]
    have ht : pctTransform (pctPreClean s) = some (pyFloatRepr (v / 1000)) := by
      unfold pctTransform
      rw [if_pos ⟨hdot, hcomma⟩, hparse, Option.map_some']
    rw [ht, Option.some_bind]
    obtain ⟨e, he⟩ := pyFloat_terminating hparse
    have he3 : (v / 1000 * 10 ^ (e + 3)).den = 1 := by
      have harith : v / 1000 * 10 ^ (e + 3) = v * 10 ^ e := by
        rw [pow_add]
        norm_num
        ring
      rw [harith]
      exact he
    exact searchSignedNum_bind_pyFloatRepr (v / 1000) (e + 3) he3
  · decide

theorem clean_percentage_both_separators_div1000_witness :
    clean_percentage_to_float "-18.000,00%" = some (round2 ((-18000 : ℚ) / 1000)) :=
  clean_percentage_both_separators_div1000.1 "-18.000,00%" (-18000)
    (by decide) (by decide) (by decide) (by decide)
    (Or.inr ⟨by norm_num, by norm_num⟩)

/-- C6 (amended): for a non-sentinel dot-only percentage whose last dot group
has more than two digits, the ÷1000 correction is applied only when the
dot-stripped value `t` satisfies `abs(t) ≥ 1000` (then the result is
`round(t/1000, 2)`, e.g. `"18.000%" ↦ 18.00`); below the threshold the dots
are merely removed (`"0.500%" ↦ 500.00`), not divided by 1000.  The upper
range hypothesis keeps `t/1000` inside CPython's positional-notation range,
which is what `pyFloatRepr` models. -/
theorem clean_percentage_dot_only_threshold :
    (∀ (s : String) (t : ℚ),
      ¬ isSentinel s →
      (pctPreClean s).contains '.' = true →
      (pctPreClean s).contains ',' = false →
      2 < ((pySplit '.' (pctPreClean s)).getLastD []).length →
      pyFloat (pyReplace ['.'] [] (pctPreClean s)) = some t →
      1000 ≤ |t| → |t| < 10 ^ 19 →
      clean_percentage_to_float s = some (round2 (t / 1000))) ∧
    clean_percentage_to_float "18.000%" = some 18 ∧
    clean_percentage_to_float "0.500%" = some 500 := by
  refine ⟨?_, by decide, by decide⟩
  intro s t hs hdot hcomma hlast hparse habs _hrange
  unfold clean_percentage_to_float
  rw [if_neg hs]
  have ht : pctTransform (pctPreClean s) = some (pyFloatRepr (t / 1000)) := by
    unfold pctTransform
    rw [if_neg (fun hc => Bool.false_ne_true (hcomma ▸ hc.2)),
      if_neg (fun hc => Bool.false_ne_true (hcomma ▸ hc)), if_pos hdot,
      if_neg (by omega), hparse, Option.map_some', if_pos habs]
  rw [ht, Option.some_bind]
  obtain ⟨e, he⟩ := pyFloat_terminating hparse
  have he3 : (t / 1000 * 10 ^ (e + 3)).den = 1 := by
    have harith : t / 1000 * 10 ^ (e + 3) = t * 10 ^ e := by
      rw [pow_add]
      norm_num
      ring
    rw [harith]
    exact he
  exact searchSignedNum_bind_pyFloatRepr (t / 1000) (e + 3) he3

theorem clean_percentage_dot_only_threshold_witness :
    clean_percentage_to_float "18.000%" = some (round2 ((18000 : ℚ) / 1000)) :=
  clean_percentage_dot_only_threshold.1 "18.000%" 18000
    (by decide) (by decide) (by decide) (by decide) (by decide)
    (by norm_num) (by norm_num)

/-- C5: whenever the profit-per-share field (first key containing
`"Lucro/Ação"`, via `findLucro`) and the last-close-price field
(`"Último Preço de Fechamento"`, via `findPreco`) both normalize to numbers
and the price is positive, `calculate_earnings_yield` returns
`(profit / price) × 100` formatted as a signed two-decimal percentage string;
in every other case it returns `"N/A"`.  For `lastClose = 25.50` and
`profitPerShare = 2.50` the derived field is `"9.80%"`. -/
theorem calculate_earnings_yield_spec :
    (∀ (d : List (String × String)) (lucro preco : ℚ),
      findLucro d = some lucro → findPreco d = some preco → 0 < preco →
      calculate_earnings_yield d = formatPct2 (lucro / preco * 100)) ∧
    (∀ d : List (String × String),
      findLucro d = none ∨ findPreco d = none ∨ (∃ p, findPreco d = some p ∧ p ≤ 0) →
      calculate_earnings_yield d = "N/A") ∧
    calculate_earnings_yield [("Último Preço de Fechamento", "R$ 25,50"),
      ("DRE 12M - Lucro/Ação", "R$ 2,50")] = "9.80%" := by
  refine ⟨?_, ?_, by decide⟩
  · intro d lucro preco hl hp hpos
    unfold calculate_earnings_yield
    rw [hl, hp]
    show (if 0 < preco then formatPct2 (lucro / preco * 100) else "N/A") = _
    rw [if_pos hpos]
  · intro d h
    unfold calculate_earnings_yield
    rcases h with h | h | ⟨p, hp, hple⟩
    · rw [h]
    · rw [h]
      cases findLucro d <;> rfl
    · rw [hp]
      cases findLucro d with
      | none => rfl
      | some l =>
        show (if 0 < p then formatPct2 (l / p * 100) else "N/A") = _
        rw [if_neg (not_lt.mpr hple)]

theorem calculate_earnings_yield_spec_witness :
    calculate_earnings_yield [("Último Preço de Fechamento", "R$ 25,50"),
      ("DRE 12M - Lucro/Ação", "R$ 2,50")] = formatPct2 (5 / 2 / (51 / 2) * 100) :=
  calculate_earnings_yield_spec.1 _ (5 / 2) (51 / 2) (by decide) (by decide) (by decide)

/-- C7: the currency normalizer detects the sign independently of the
currency-marker position — for every text `t`, a minus before the marker
(`"- R$ " ++ t`) and a minus between the marker and the digits
(`"R$ -" ++ t`) produce identical results; in particular both
`"- R$ 0,18"` and `"R$ -0,18"` normalize to −0.18. -/
theorem clean_currency_sign_independence :
    (∀ t : String,
      clean_currency_to_float ("- R$ " ++ t) = clean_currency_to_float ("R$ -" ++ t)) ∧
    clean_currency_to_float "- R$ 0,18" = some (-0.18) ∧
    clean_currency_to_float "R$ -0,18" = some (-0.18) := by
  refine ⟨?_, by decide, by decide⟩
  intro t
  have hlA : ("- R$ " ++ t).length = 5 + t.length := by
    rw [String.length_append]
    rfl
  have hlB : ("R$ -" ++ t).length = 4 + t.length := by
    rw [String.length_append]
    rfl
  have hsA : ¬ isSentinel ("- R$ " ++ t) :=
    not_sentinel_of_length (by omega) (by omega) (by omega)
  have hsB : ¬ isSentinel ("R$ -" ++ t) :=
    not_sentinel_of_length (by omega) (by omega) (by omega)
  unfold clean_currency_to_float
  rw [if_neg hsA, if_neg hsB]
  have htA : ("- R$ " ++ t).toList = '-' :: ' ' :: 'R' :: '$' :: ' ' :: t.toList := by
    rw [show ("- R$ " ++ t).toList = "- R$ ".toList ++ t.toList from by
      simp [String.toList]]
    rfl
  have htB : ("R$ -" ++ t).toList = 'R' :: '$' :: ' ' :: '-' :: t.toList := by
    rw [show ("R$ -" ++ t).toList = "R$ -".toList ++ t.toList from by
      simp [String.toList]]
    rfl
  rw [htA, htB]
  have hstripA : pyStrip ('-' :: ' ' :: 'R' :: '$' :: ' ' :: t.toList) =
      pyRstrip ('-' :: ' ' :: 'R' :: '$' :: ' ' :: t.toList) := by
    unfold pyStrip
    rw [pyLstrip_cons_of_not_space _ (by decide)]
  have hstripB : pyStrip ('R' :: '$' :: ' ' :: '-' :: t.toList) =
      pyRstrip ('R' :: '$' :: ' ' :: '-' :: t.toList) := by
    unfold pyStrip
    rw [pyLstrip_cons_of_not_space _ (by decide)]
  rw [hstripA, hstripB,
    show ('-' :: ' ' :: 'R' :: '$' :: ' ' :: t.toList) =
      ['-', ' ', 'R', '$', ' '] ++ t.toList from rfl,
    show ('R' :: '$' :: ' ' :: '-' :: t.toList) =
      ['R', '$', ' ', '-'] ++ t.toList from rfl]
  by_cases hu : pyRstrip t.toList = []
  · rw [pyRstrip_append_of_nil _ hu, pyRstrip_append_of_nil _ hu]
    decide
  · rw [pyRstrip_append_of_ne_nil _ hu, pyRstrip_append_of_ne_nil _ hu,
      show (['-', ' ', 'R', '$', ' '] ++ pyRstrip t.toList) =
        '-' :: ' ' :: 'R' :: '$' :: ' ' :: pyRstrip t.toList from rfl,
      show (['R', '$', ' ', '-'] ++ pyRstrip t.toList) =
        'R' :: '$' :: ' ' :: '-' :: pyRstrip t.toList from rfl,
      currencyStripSyms_sign_eq, currencyNeg_dash, currencyNeg_marker_dash]

theorem clean_currency_sign_independence_witness :
    clean_currency_to_float ("- R$ " ++ "0,18") =
      clean_currency_to_float ("R$ -" ++ "0,18") :=
  clean_currency_sign_independence.1 "0,18"

/-- C10: `clean_stock_data` preserves the record's key sequence exactly (no
key added, removed or renamed), a key absent from the static rule table keeps
its original value, a ruled key whose normalizer returns `None` keeps its
original raw value, and so does a ruled key with a falsy (empty) value; the
caller's record is never mutated — the function copies it
(`stock_data.copy()`), which the purely functional model reflects. -/
theorem clean_stock_data_frame :
    (∀ d : List (String × String),
      (clean_stock_data d).map Prod.fst = d.map Prod.fst) ∧
    (∀ (d : List (String × String)) (i : ℕ) (k v : String),
      d[i]? = some (k, v) →
      (cleaning_rules.lookup k = none →
        (clean_stock_data d)[i]? = some (k, CellVal.s v)) ∧
      (∀ c, cleaning_rules.lookup k = some c → applyCleaner c v = none →
        (clean_stock_data d)[i]? = some (k, CellVal.s v)) ∧
      (v = "" → (clean_stock_data d)[i]? = some (k, CellVal.s v))) := by
  have hfst : ∀ kv : String × String, (cleanEntry kv).1 = kv.1 := by
    intro kv
    unfold cleanEntry
    rcases cleaning_rules.lookup kv.1 with _ | c
    · rfl
    · dsimp only
      split
      · rcases applyCleaner c kv.2 with _ | cv <;> rfl
      · rfl
  constructor
  · intro d
    unfold clean_stock_data
    rw [List.map_map]
    exact List.map_congr_left fun kv _ => hfst kv
  · intro d i k v hget
    have hmap : (clean_stock_data d)[i]? = some (cleanEntry (k, v)) := by
      unfold clean_stock_data
      rw [List.getElem?_map, hget, Option.map_some']
    refine ⟨?_, ?_, ?_⟩
    · intro hnone
      rw [hmap]
      unfold cleanEntry
      rw [hnone]
    · intro c hsome happ
      rw [hmap]
      unfold cleanEntry
      rw [hsome]
      dsimp only
      by_cases hv : v = ""
      · rw [if_neg (fun hne => hne hv)]
      · rw [if_pos hv, happ]
    · intro hv
      rw [hmap]
      unfold cleanEntry
      rcases hl : cleaning_rules.lookup k with _ | c
      · rfl
      · dsimp only
        rw [if_neg (fun hne => hne hv)]

theorem clean_stock_data_frame_witness :
    (clean_stock_data [("Foo", "bar")])[0]? = some ("Foo", CellVal.s "bar") :=
  (clean_stock_data_frame.2 [("Foo", "bar")] 0 "Foo" "bar" rfl).1 (by decide)

/-- C3: with a positive worker count and batch size, `scrape_all_stocks` on a
symbol list of size N (workerCount ≤ N) produces exactly N records, one per
submitted symbol (error records included, since the per-symbol scraping
function is total), regardless of the order in which workers complete within
each batch (`reorder` ranges over arbitrary permutations, modelling
`as_completed`). -/
theorem scrape_all_stocks_batch_complete {ρ : Type} (max_workers batch_size : ℤ)
    (scrape : String → ρ) (reorder : List ρ → List ρ) (stock_codes : List String)
    (hre : ∀ l, List.Perm (reorder l) l)
    (hmw : 1 ≤ max_workers) (hbs : 1 ≤ batch_size)
    (_hwc : max_workers ≤ (stock_codes.length : ℤ)) :
    ∃ res, scrape_all_stocks max_workers batch_size scrape reorder stock_codes =
        Except.ok res ∧
      res.length = stock_codes.length ∧
      List.Perm res (stock_codes.map scrape) := by
  have hbn : 1 ≤ batch_size.toNat := by omega
  have heq : scrape_all_stocks max_workers batch_size scrape reorder stock_codes =
      Except.ok (((toBatches batch_size.toNat stock_codes).map fun batch =>
        reorder (batch.map scrape)).flatten) := by
    unfold scrape_all_stocks
    rw [if_neg (by omega), if_neg (by omega), if_neg (fun hc => by omega)]
  have hperm : List.Perm (((toBatches batch_size.toNat stock_codes).map fun batch =>
      reorder (batch.map scrape)).flatten) (stock_codes.map scrape) := by
    rw [show ((toBatches batch_size.toNat stock_codes).map fun batch =>
        reorder (batch.map scrape)) =
        (((toBatches batch_size.toNat stock_codes).map fun batch =>
          batch.map scrape).map reorder) from by
      rw [List.map_map]
      rfl]
    refine (flatten_map_reorder_perm reorder hre _).trans ?_
    rw [← List.map_flatten, toBatches_flatten _ hbn]
  refine ⟨_, heq, ?_, hperm⟩
  rw [hperm.length_eq, List.length_map]

theorem scrape_all_stocks_batch_complete_witness :
    ∃ res, scrape_all_stocks 1 1 (fun c : String => c) id ["AAAA"] = Except.ok res ∧
      res.length = (["AAAA"] : List String).length ∧
      List.Perm res (["AAAA"].map fun c : String => c) :=
  scrape_all_stocks_batch_complete 1 1 (fun c => c) id ["AAAA"]
    (fun l => List.Perm.refl l) (by norm_num) (by norm_num) (by norm_num)

/-- C9 (counterexample): a negative batch size does not make the run fail at
all, let alone fail fast: `range(0, len(stock_codes), batch_size)` is empty,
so the batch loop never executes and the run completes with zero records. -/
theorem scrape_all_stocks_negative_batch_counterexample :
    scrape_all_stocks 1 (-1) (fun c : String => c) id ["AAAA"] = Except.ok [] := by
  rfl

/-- C9 (amended): a zero batch size fails fast before any batch starts
(`ValueError` from `range`) and is fatal to the run; a non-positive worker
count with a positive batch size and a non-empty symbol list fails when the
first batch constructs its `ThreadPoolExecutor`, before any symbol is
fetched, and is fatal to the run; but a negative batch size does not fail —
the batch loop is empty and the run completes with an empty aggregate. -/
theorem scrape_all_stocks_config_failures :
    (∀ (ρ : Type) (max_workers : ℤ) (scrape : String → ρ)
        (reorder : List ρ → List ρ) (stock_codes : List String),
      scrape_all_stocks max_workers 0 scrape reorder stock_codes =
        Except.error "range() arg 3 must not be zero") ∧
    (∀ (ρ : Type) (max_workers batch_size : ℤ) (scrape : String → ρ)
        (reorder : List ρ → List ρ) (stock_codes : List String),
      max_workers ≤ 0 → 1 ≤ batch_size → stock_codes ≠ [] →
      scrape_all_stocks max_workers batch_size scrape reorder stock_codes =
        Except.error "max_workers must be greater than 0") ∧
    (∀ (ρ : Type) (max_workers batch_size : ℤ) (scrape : String → ρ)
        (reorder : List ρ → List ρ) (stock_codes : List String),
      batch_size < 0 →
      scrape_all_stocks max_workers batch_size scrape reorder stock_codes =
        Except.ok []) := by
  refine ⟨?_, ?_, ?_⟩
  · intro ρ mw scrape reorder codes
    unfold scrape_all_stocks
    rw [if_pos rfl]
  · intro ρ mw bs scrape reorder codes hmw hbs hne
    unfold scrape_all_stocks
    rw [if_neg (by omega), if_neg (by omega), if_pos ⟨hmw, hne⟩]
  · intro ρ mw bs scrape reorder codes hbs
    unfold scrape_all_stocks
    rw [if_neg (by omega), if_pos hbs]

theorem scrape_all_stocks_config_failures_witness :
    scrape_all_stocks 0 1 (fun c : String => c) id ["AAAA"] =
      Except.error "max_workers must be greater than 0" :=
  scrape_all_stocks_config_failures.2.1 String 0 1 (fun c => c) id ["AAAA"]
    (by norm_num) (by norm_num) (by decide)
